import Mathlib

/-!
Verification development for the truthgit repository.

The data model and operations below are shallow embeddings of the Python
sources `src/truthgit/validators.py`, `src/truthgit/cli.py` and
`src/truthgit/api/server.py`.  Python floats carrying validator confidences
are modelled as rationals (`ℚ`); the arithmetic performed on them here
(means, comparisons against the 0.66 threshold, clamping) is exact.
Modules of the repository that are referenced but not among the provided
sources (`truthgit.objects`, `truthgit.repository`, `truthgit.proof`,
`truthgit.hashing`) are modelled from the specification; each such
definition carries a doc comment starting with `Modelled from the spec:`.
-/

/-! ## Validator results (`validators.py`, `ValidationResult`) -/

/-- Embedding of the dataclass `ValidationResult` from `validators.py`.
Fields `model` and `tokens_used` default to `""` and `0`, `error` to `None`,
exactly as in the source. -/
structure ValidationResult where
  validator_name : String
  confidence : ℚ
  reasoning : String
  model : String := ""
  tokens_used : ℕ := 0
  error : Option String := none
deriving DecidableEq

/-- Embedding of the property `ValidationResult.success`:
`return self.error is None`. -/
def ValidationResult.success (r : ValidationResult) : Bool :=
  r.error.isNone

/-! ## The verifier-result mapping built by the calling layers

Both `cli.py` (command `verify`, lines 184–189) and `api/server.py`
(handler `verify_claim`, lines 206–221) accumulate validator results into a
Python `dict` keyed by validator name.  A Python `dict` insert updates the
value in place when the key exists (keeping its position) and appends the
new key otherwise; `dictInsert` reproduces that. -/

/-- Insert-or-update into an association list, with Python `dict` semantics:
an existing key keeps its position and gets the new value, a fresh key is
appended at the end. -/
def dictInsert (d : List (String × ℚ × String)) (k : String) (v : ℚ × String) :
    List (String × ℚ × String) :=
  if d.any (fun e => decide (e.1 = k)) then
    d.map (fun e => if e.1 = k then (k, v) else e)
  else
    d ++ [(k, v)]

/-- The accumulation loop of the CLI `verify` command (`cli.py` 184–189):
`for r in results: if r.success: all_results[r.validator_name] = (r.confidence, r.reasoning)`.
Results whose `error` field is set are skipped. -/
def cliCollect (results : List ValidationResult) : List (String × ℚ × String) :=
  results.foldl
    (fun acc r =>
      if r.success then dictInsert acc r.validator_name (r.confidence, r.reasoning)
      else acc)
    []

/-- The accumulation loop of the `/api/verify` handler (`server.py` 210–221).
Each validator call is wrapped in `try/except`; a call that raises is
skipped (modelled by `none`), but a returned `ValidationResult` is inserted
into `verifier_results` unconditionally — the handler never inspects the
result's `error` field. -/
def apiCollect (outs : List (Option ValidationResult)) : List (String × ℚ × String) :=
  outs.foldl
    (fun acc o =>
      match o with
      | none => acc
      | some r => dictInsert acc r.validator_name (r.confidence, r.reasoning))
    []

/-! ## validate_claim aggregation (`validators.py` 468–506) -/

/-- Embedding of `validate_claim` from `validators.py`.  A validator is
modelled as a pure function from `(claim, domain)` to its returned
`ValidationResult` (the network and stdin effects live inside that
function's value).  The guard raising `ValueError` when fewer than
`min_validators` validators are configured becomes the `Except.error`
branch; otherwise every validator is run and the average confidence over
the successful results is computed, `0.0` when there is no successful
result — exactly lines 489–506 of the source. -/
def validate_claim (validators : List (String → String → ValidationResult))
    (claim domain : String) (min_validators : ℕ) :
    Except String (List ValidationResult × ℚ) :=
  if validators.length < min_validators then
    Except.error "Need at least min_validators validators"
  else
    let results := validators.map (fun v => v claim domain)
    let successful := results.filter (fun r => r.success)
    let avg : ℚ :=
      if successful.isEmpty then 0
      else (successful.map (fun r => r.confidence)).sum / successful.length
    Except.ok (results, avg)

/-! ## API response envelope (`server.py`, `create_response`, 106–117) -/

/-- Embedding of the envelope dictionary returned by `create_response`.
The `data` payload is left polymorphic. -/
structure ApiEnvelope (α : Type) where
  success : Bool
  data : Option α
  error : Option String
  processingTime : ℤ

/-- Embedding of `create_response` (`server.py` 106–117).  `start_time`
is an optional timestamp (Python default `None`); the guard
`if start_time` is falsy both for `None` and for `0.0`.  Python's
`int(...)` truncation agrees with `Int.floor` for the nonnegative
durations produced here. -/
def create_response (α : Type) (data : Option α) (error : Option String)
    (start_time : Option ℚ) (now : ℚ) : ApiEnvelope α :=
  { success := error.isNone
    data := data
    error := error
    processingTime :=
      match start_time with
      | none => 0
      | some t => if t = 0 then 0 else Int.floor ((now - t) * 1000) }

/-! ## The individual validators (`validators.py`)

Each `validate` method performs I/O (an HTTP request, or reading stdin) and
then computes its `ValidationResult` purely from the outcome of that I/O.
The embedding makes the I/O outcome an explicit argument and keeps the
result computation from the source. -/

/-- Outcome of the Ollama HTTP request and JSON parsing inside
`OllamaValidator.validate` (`validators.py` 115–166). -/
inductive OllamaOutcome
  /-- `import httpx` raised `ImportError`. -/
  | httpxMissing
  /-- the request, `raise_for_status`, `response.json()` or the `float(...)`
  conversion raised; `msg` is `str(e)` from the `except Exception` handler. -/
  | requestFailed (msg : String)
  /-- `json.loads(text)` raised `JSONDecodeError`; `text` is the raw
  response text used by the fallback branch. -/
  | jsonDecodeError (text : String)
  /-- the response parsed; `confidence` is `float(parsed.get("confidence", 0.5))`
  and `reasoning` is `parsed.get("reasoning", "No reasoning provided")`. -/
  | parsed (confidence : ℚ) (reasoning : String)
deriving DecidableEq

/-- Python `str.upper()`, modelled character-wise (`Char.toUpper`
uppercases ASCII letters, agreeing with Python on the ASCII model names
used throughout the sources). -/
def pyUpper (s : String) : String :=
  String.mk (s.data.map Char.toUpper)

/-- The validator name computed in `OllamaValidator.__init__`:
`f"OLLAMA:{model.upper()}"`. -/
def ollamaName (model : String) : String :=
  "OLLAMA:" ++ pyUpper model

/-- Embedding of `OllamaValidator.validate` (`validators.py` 115–166).
On a parsed response the confidence is clamped:
`min(1.0, max(0.0, confidence))`. -/
def OllamaValidator.validate (model : String) (out : OllamaOutcome) : ValidationResult :=
  match out with
  | OllamaOutcome.parsed confidence reasoning =>
      { validator_name := ollamaName model
        confidence := min 1 (max 0 confidence)
        reasoning := reasoning
        model := model }
  | OllamaOutcome.jsonDecodeError text =>
      { validator_name := ollamaName model
        confidence := 1/2
        reasoning := if text = "" then "Could not parse response" else text.take 200
        model := model }
  | OllamaOutcome.httpxMissing =>
      { validator_name := ollamaName model
        confidence := 0
        reasoning := ""
        error := some "httpx not installed. Run: pip install httpx" }
  | OllamaOutcome.requestFailed msg =>
      { validator_name := ollamaName model
        confidence := 0
        reasoning := ""
        error := some msg }

/-- Outcome of the cloud API request inside `ClaudeValidator.validate`
(`validators.py` 194–242); `GPTValidator.validate` and
`GeminiValidator.validate` have the same shape. -/
inductive CloudOutcome
  /-- importing the client library raised `ImportError`. -/
  | libMissing
  /-- the request, `json.loads`, a missing key or `float(...)` raised;
  `msg` is `str(e)` from the `except Exception` handler. -/
  | requestFailed (msg : String)
  /-- the response parsed: `float(parsed["confidence"])`,
  `parsed["reasoning"]`, and the token count from the usage data. -/
  | parsed (confidence : ℚ) (reasoning : String) (tokens : ℕ)
deriving DecidableEq

/-- Embedding of `ClaudeValidator.validate` (`validators.py` 194–242).
`api_key` is `os.getenv("ANTHROPIC_API_KEY")`; the guard
`if not self.api_key` is true for `None` and for the empty string.  Note
that on the parsed branch the confidence is NOT clamped — the source
returns `float(parsed["confidence"])` as is. -/
def ClaudeValidator.validate (api_key : Option String) (model : String)
    (out : CloudOutcome) : ValidationResult :=
  if api_key = none ∨ api_key = some "" then
    { validator_name := "CLAUDE"
      confidence := 0
      reasoning := ""
      error := some "ANTHROPIC_API_KEY not set" }
  else
    match out with
    | CloudOutcome.parsed confidence reasoning tokens =>
        { validator_name := "CLAUDE"
          confidence := confidence
          reasoning := reasoning
          model := model
          tokens_used := tokens }
    | CloudOutcome.libMissing =>
        { validator_name := "CLAUDE"
          confidence := 0
          reasoning := ""
          error := some "anthropic not installed. Run: pip install anthropic" }
    | CloudOutcome.requestFailed msg =>
        { validator_name := "CLAUDE"
          confidence := 0
          reasoning := ""
          error := some msg }

/-- Outcome of the stdin interaction inside `HumanValidator.validate`
(`validators.py` 397–422). -/
inductive HumanOutcome
  /-- both `input()` calls succeeded and `float(confidence_str)` parsed;
  `confidence` is that float (entered on a 0–100 scale). -/
  | entered (confidence : ℚ) (reasoning : String)
  /-- `float(...)` raised `ValueError` or `input()` raised `EOFError`. -/
  | inputFailed (msg : String)
deriving DecidableEq

/-- Embedding of `HumanValidator.validate` (`validators.py` 397–422).
The entered value is divided by 100 and clamped:
`min(1.0, max(0.0, confidence))`. -/
def HumanValidator.validate (name : String) (out : HumanOutcome) : ValidationResult :=
  match out with
  | HumanOutcome.entered confidence reasoning =>
      { validator_name := name
        confidence := min 1 (max 0 (confidence / 100))
        reasoning := reasoning }
  | HumanOutcome.inputFailed msg =>
      { validator_name := name
        confidence := 0
        reasoning := ""
        error := some msg }

/-! ## The validator registry (`validators.py`, `get_default_validators`, 430–465)

Python objects are compared by identity in `v not in validators` (none of
the validator classes defines `__eq__`), so each constructed validator
carries an object id; every constructor call allocates a fresh id.
`OllamaValidator.is_available` ignores `self.model` — it only probes
whether the Ollama server answers on localhost:11434 — so availability is
a single flag `up` shared by all Ollama instances; cloud availability is
the presence of the respective API key. -/

/-- A constructed validator object, tagged with its allocation id. -/
inductive ValidatorInst
  | ollama (objId : ℕ) (model : String)
  | claude (objId : ℕ)
  | gpt (objId : ℕ)
  | gemini (objId : ℕ)
deriving DecidableEq

/-- The allocation id of a validator object. -/
def ValidatorInst.objId : ValidatorInst → ℕ
  | ValidatorInst.ollama i _ => i
  | ValidatorInst.claude i => i
  | ValidatorInst.gpt i => i
  | ValidatorInst.gemini i => i

/-- The `name` property of a validator object (`OllamaValidator` computes
`f"OLLAMA:{model.upper()}"`, the cloud validators return fixed names). -/
def ValidatorInst.vname : ValidatorInst → String
  | ValidatorInst.ollama _ m => ollamaName m
  | ValidatorInst.claude _ => "CLAUDE"
  | ValidatorInst.gpt _ => "GPT"
  | ValidatorInst.gemini _ => "GEMINI"

/-- Whether the object is an `OllamaValidator` instance. -/
def ValidatorInst.isOllama : ValidatorInst → Bool
  | ValidatorInst.ollama _ _ => true
  | _ => false

/-- Python `v not in validators` membership: default `__eq__` is object
identity, i.e. equality of allocation ids. -/
def identMem (v : ValidatorInst) (l : List ValidatorInst) : Bool :=
  l.any (fun w => decide (w.objId = v.objId))

/-- The model list `ollama_models = ["llama3", "mistral", "phi3"]`. -/
def OLLAMA_MODELS : List String := ["llama3", "mistral", "phi3"]

/-- The first loop of `get_default_validators` (`validators.py` 444–448):
construct an `OllamaValidator` per model, append the first available one
and `break`.  The counter threads allocation ids (one per construction,
available or not). -/
def firstOllamaLoop (up : Bool) : List String → ℕ → List ValidatorInst × ℕ
  | [], ctr => ([], ctr)
  | m :: rest, ctr =>
      if up then ([ValidatorInst.ollama ctr m], ctr + 1)
      else firstOllamaLoop up rest (ctr + 1)

/-- The `local_only` loop of `get_default_validators` (`validators.py`
451–457): construct a fresh `OllamaValidator` per model, append it when
available and not already present *by identity*, and stop once the list
reaches three validators. -/
def localOnlyLoop (up : Bool) : List String → List ValidatorInst → ℕ → List ValidatorInst
  | [], acc, _ => acc
  | m :: rest, acc, ctr =>
      let v := ValidatorInst.ollama ctr m
      if up ∧ ¬ identMem v acc then
        let acc2 := acc ++ [v]
        if 3 ≤ acc2.length then acc2 else localOnlyLoop up rest acc2 (ctr + 1)
      else localOnlyLoop up rest acc (ctr + 1)

/-- Embedding of `get_default_validators` (`validators.py` 430–465).
`up` is whether the Ollama server answers; `claudeAvail`, `gptAvail`,
`geminiAvail` are the presence of the cloud API keys. -/
def get_default_validators (local_only up claudeAvail gptAvail geminiAvail : Bool) :
    List ValidatorInst :=
  let (validators, ctr) := firstOllamaLoop up OLLAMA_MODELS 0
  if local_only then
    localOnlyLoop up OLLAMA_MODELS validators ctr
  else
    let cloud := [(ValidatorInst.claude ctr, claudeAvail),
                  (ValidatorInst.gpt (ctr + 1), gptAvail),
                  (ValidatorInst.gemini (ctr + 2), geminiAvail)]
    validators ++ (cloud.filter (fun p => p.2)).map Prod.fst

/-! ## Consensus engine

`calculate_consensus` lives in `truthgit.objects`, which is not among the
provided sources; it is modelled from §4.3 of the spec. -/

/-- The `consensus_type` classification of a `ConsensusResult`. -/
inductive ConsensusType
  | unanimous
  | majority
  | split
  | failed
deriving DecidableEq

/-- Embedding of the `ConsensusResult` value (spec §3). -/
structure ConsensusResult where
  value : ℚ
  passed : Bool
  consensus_type : ConsensusType
deriving DecidableEq

/-- Whether a confidence lies in [0, 1] (spec §4.3: an out-of-range
confidence is treated as an error and excluded from the successful set). -/
def inRange (c : ℚ) : Bool :=
  decide (0 ≤ c ∧ c ≤ 1)

/-- Modelled from the spec: `calculate_consensus` (truthgit.objects is not
among the provided sources; spec §4.3).  By the time results reach the
engine they are `(name, confidence, reasoning)` entries with no error
field, so "results with no error" reduces to the in-range filter: the spec
directs that an out-of-range confidence is treated as an error and
excluded from S, not clamped.  If `|S| < 2` the quorum fails:
`value = 0` if S is empty else `mean(S)`, `passed = false`.  Otherwise
`value = mean(S)` and `passed = value ≥ threshold`.  The agreement epsilon
separating UNANIMOUS/MAJORITY/SPLIT is the spec's example value 0.05 (the
exact constants are an acknowledged open question of the spec, §9). -/
def calculate_consensus (verifier_results : List (String × ℚ × String))
    (threshold : ℚ) : ConsensusResult :=
  let S := verifier_results.filter (fun e => inRange e.2.1)
  let confs := S.map (fun e => e.2.1)
  if S.length < 2 then
    { value := if S.length = 0 then 0 else confs.sum / S.length
      passed := false
      consensus_type := ConsensusType.failed }
  else
    let value := confs.sum / S.length
    let passed := decide (threshold ≤ value)
    let spread := confs.foldr max 0 - confs.foldr min 1
    { value := value
      passed := passed
      consensus_type :=
        if passed then
          if spread ≤ 1/20 then ConsensusType.unanimous else ConsensusType.majority
        else
          if 1/20 < spread then ConsensusType.split else ConsensusType.failed }

/-! ## Repository state

`truthgit.repository` and `truthgit.hashing` are not among the provided
sources; the state and the operations `claim`, `verify` and `init` used by
`cli.py` and `server.py` are modelled from §4.1, §4.4 and §6 of the spec. -/

/-- State of a stored claim: STAGED, VERIFIED or REJECTED (spec §3). -/
inductive ClaimState
  | stagedState
  | verifiedState
  | rejectedState
deriving DecidableEq

/-- A stored `Claim` object (spec §3), restricted to the fields the
embedded operations touch. -/
structure ClaimObj where
  content : String
  domain : String
  category : String
  state : ClaimState
deriving DecidableEq

/-- A stored `Verification` object (spec §3). -/
structure VerificationObj where
  claim_hash : String
  verifier_results : List (String × ℚ × String)
  consensus : ConsensusResult
  parent : Option String
deriving DecidableEq

/-- Modelled from the spec: `content_hash` (truthgit.hashing is not among
the provided sources; spec §4.1).  The digest is a deterministic function
of the canonical serialized content; the external hash primitive is
modelled as the canonical serialization itself, which preserves the only
property the embedded operations rely on — determinism in the hashed
fields. -/
def claim_hash (content domain category : String) : String :=
  "claim\x00" ++ content ++ "\x00" ++ domain ++ "\x00" ++ category

/-- Modelled from the spec: the content hash of a `Verification` object,
in the same style as `claim_hash`. -/
def verification_hash (v : VerificationObj) : String :=
  "verification\x00" ++ v.claim_hash ++ "\x00" ++
    (match v.parent with
     | none => ""
     | some p => p) ++ "\x00" ++ toString v.consensus.value

/-- The mutable repository state (spec §3, repository-wide pointers, and
§6 on-disk layout): the object store areas for claims and verifications
(hash-keyed), the staging set, HEAD, and the configured consensus
threshold. -/
structure RepoState where
  claims : List (String × ClaimObj)
  verifications : List (String × VerificationObj)
  staged : List String
  head : Option String
  threshold : ℚ
deriving DecidableEq

/-- Modelled from the spec: `TruthRepository.claim` (truthgit.repository
is not among the provided sources; spec §4.4): constructs and stores a
Claim, deduplicated by content hash, adds its hash to the staging set, and
returns the hash. -/
def repo_claim (st : RepoState) (content domain category : String) :
    RepoState × String :=
  let h := claim_hash content domain category
  let claims :=
    if h ∈ st.claims.map Prod.fst then st.claims
    else st.claims ++ [(h, { content := content, domain := domain,
                             category := category, state := ClaimState.stagedState })]
  let staged := if h ∈ st.staged then st.staged else st.staged ++ [h]
  ({ st with claims := claims, staged := staged }, h)

/-- Modelled from the spec: one iteration of `TruthRepository.verify` over
a staged claim hash (spec §4.4): run the consensus engine on the supplied
verifier results, materialize a `Verification` with `parent = HEAD`,
persist it, transition the claim's state according to `consensus.passed`,
advance HEAD and remove the claim from staging.  A staged hash absent from
the store is skipped. -/
def repo_verify_step (vr : List (String × ℚ × String))
    (acc : RepoState × Option VerificationObj) (ch : String) :
    RepoState × Option VerificationObj :=
  let st := acc.1
  match st.claims.find? (fun e => decide (e.1 = ch)) with
  | none => acc
  | some e =>
      let c := e.2
      let consensus := calculate_consensus vr st.threshold
      let v : VerificationObj :=
        { claim_hash := ch, verifier_results := vr,
          consensus := consensus, parent := st.head }
      let vh := verification_hash v
      let newState :=
        if consensus.passed then ClaimState.verifiedState else ClaimState.rejectedState
      ({ st with
          verifications :=
            if vh ∈ st.verifications.map Prod.fst then st.verifications
            else st.verifications ++ [(vh, v)]
          claims := st.claims.map
            (fun e2 => if e2.1 = ch then (ch, { c with state := newState }) else e2)
          staged := st.staged.filter (fun x => decide (x ≠ ch))
          head := some vh },
       some v)

/-- Modelled from the spec: `TruthRepository.verify` (spec §4.4): process
every currently staged claim and return the last `Verification`, or `none`
when nothing was staged. -/
def repo_verify (st : RepoState) (vr : List (String × ℚ × String)) :
    RepoState × Option VerificationObj :=
  st.staged.foldl (repo_verify_step vr) (st, none)

/-! ## The `/api/verify` handler (`server.py`, `verify_claim`, 174–250) -/

/-- The response produced by the `/api/verify` handler: either the data
payload (consensus passed/value and the short claim hash) wrapped in a
success envelope, or an error envelope. -/
inductive ApiVerifyResponse
  | ok (passed : Bool) (consensusValue : ℚ) (claimHashShort : String)
  | err (msg : String)
deriving DecidableEq

/-- Embedding of the `/api/verify` handler body (`server.py` 183–247).
The claim is created (stored and staged) first; then the validator call
outcomes are accumulated into `verifier_results` (see `apiCollect`); if
fewer than two entries were collected an error envelope is returned —
without undoing the claim creation; otherwise `repo.verify` runs on the
collected results. -/
def api_verify (st : RepoState) (content domain : String)
    (outs : List (Option ValidationResult)) : RepoState × ApiVerifyResponse :=
  let p := repo_claim st content domain "factual"
  let st1 := p.1
  let ch := p.2
  let vr := apiCollect outs
  if vr.length < 2 then
    (st1, ApiVerifyResponse.err "Verification failed - insufficient validators available")
  else
    match repo_verify st1 vr with
    | (st2, none) => (st2, ApiVerifyResponse.err "Verification failed")
    | (st2, some v) =>
        (st2, ApiVerifyResponse.ok v.consensus.passed v.consensus.value (ch.take 8))

/-! ## The CLI `init` command (`cli.py` 41–58) -/

/-- The error raised by `TruthRepository.init` on re-initialization
(`FileExistsError`, the spec's `AlreadyExists`). -/
inductive InitError
  | alreadyExists
deriving DecidableEq

/-- Modelled from the spec: `TruthRepository.init` (truthgit.repository is
not among the provided sources; spec §4.4): creates the on-disk layout,
failing with `AlreadyExists` when the repository is already initialized
and `force` is not set. -/
def repo_init (initialized force : Bool) : Except InitError Unit :=
  if initialized ∧ ¬ force then Except.error InitError.alreadyExists
  else Except.ok ()

/-- Outcome of a CLI command: a process exit code, or an internal
exception propagated unformatted to the user. -/
inductive CliOutcome
  | exit (code : ℕ)
  | internalError (msg : String)
deriving DecidableEq

/-- Embedding of the CLI `init` command (`cli.py` 41–58): `repo.init` is
called inside `try`; `FileExistsError` is caught, a message is printed and
`typer.Exit(1)` is raised (exit code 1); on success the command finishes
normally (exit code 0).  No path produces an uncaught internal error. -/
def cli_init (initialized force : Bool) : CliOutcome :=
  match repo_init initialized force with
  | Except.error InitError.alreadyExists => CliOutcome.exit 1
  | Except.ok _ => CliOutcome.exit 0

/-! ## Standalone proof-certificate verification

`truthgit.proof` is not among the provided sources; `verify_proof_standalone`
is modelled from §4.5 and §6 of the spec.  Its caller in the sources is the
`/api/verify-proof` handler (`server.py` 333–370). -/

/-- A parsed, structurally complete `ProofCertificate` (spec §3). -/
structure ProofCertificate where
  claim_hash : String
  claim_content : String
  claim_domain : String
  verification_hash : String
  consensus_value : ℚ
  consensus_passed : Bool
  validators : List String
  timestamp : String
  issuer_public_key : String
  signature : String
  format_version : String
deriving DecidableEq

/-- The raw field set decoded from a certificate payload before the
structural-completeness check: every required field may be absent. -/
structure RawCertificate where
  claim_hash : Option String
  claim_content : Option String
  claim_domain : Option String
  verification_hash : Option String
  consensus_value : Option ℚ
  consensus_passed : Option Bool
  validators : Option (List String)
  timestamp : Option String
  issuer_public_key : Option String
  signature : Option String
  format_version : Option String
deriving DecidableEq

/-- Modelled from the spec: the structural-completeness check of
`verify_proof_standalone` (spec §4.5) — every required certificate field
must be present; any absent field makes the certificate unparseable. -/
def parseCertificate (raw : RawCertificate) : Option ProofCertificate := do
  let ch ← raw.claim_hash
  let cc ← raw.claim_content
  let cd ← raw.claim_domain
  let vh ← raw.verification_hash
  let cv ← raw.consensus_value
  let cp ← raw.consensus_passed
  let vs ← raw.validators
  let ts ← raw.timestamp
  let pk ← raw.issuer_public_key
  let sg ← raw.signature
  let fv ← raw.format_version
  pure { claim_hash := ch, claim_content := cc, claim_domain := cd,
         verification_hash := vh, consensus_value := cv, consensus_passed := cp,
         validators := vs, timestamp := ts, issuer_public_key := pk,
         signature := sg, format_version := fv }

/-- Modelled from the spec: `verify_proof_standalone` (truthgit.proof is
not among the provided sources; spec §4.5).  The input is either an
undecodable payload (`none` — e.g. a string that is neither valid JSON nor
a valid compact encoding) or the decoded raw field set; `sigValid`
abstracts the asymmetric signature check of the canonical bytes against
the embedded public key.  The function is total (it never raises): it
returns `(is_valid, message, parsed certificate or none)`, and malformed
input — undecodable, or missing a required field — yields `is_valid =
false`, a descriptive message, and no certificate. -/
def verify_proof_standalone (sigValid : ProofCertificate → Bool)
    (input : Option RawCertificate) : Bool × String × Option ProofCertificate :=
  match input with
  | none => (false, "Invalid certificate: could not parse input", none)
  | some raw =>
      match parseCertificate raw with
      | none => (false, "Invalid certificate: missing required field", none)
      | some cert =>
          if sigValid cert then (true, "Certificate is valid", some cert)
          else (false, "Invalid certificate: signature verification failed", some cert)

/-! ## Concrete fixtures used by witnesses and counterexamples -/

/-- A successful validator result, as `OllamaValidator.validate` returns
it on a parsed response. -/
def okResult : ValidationResult :=
  { validator_name := "OLLAMA:LLAMA3", confidence := 1, reasoning := "ok" }

/-- A failed validator result, exactly what `ClaudeValidator.validate`
returns when `ANTHROPIC_API_KEY` is unset: `error` set and confidence 0. -/
def errResult : ValidationResult :=
  { validator_name := "CLAUDE", confidence := 0, reasoning := "",
    error := some "ANTHROPIC_API_KEY not set" }

/-- A freshly initialized repository state: empty store, empty staging
set, no HEAD, default consensus threshold 0.66. -/
def emptyRepoState : RepoState :=
  { claims := [], verifications := [], staged := [], head := none, threshold := 66/100 }

/-- A structurally malformed certificate payload: every field present
except `signature`. -/
def rawCertMissingSignature : RawCertificate :=
  { claim_hash := some "h", claim_content := some "Water boils at 100C",
    claim_domain := some "physics", verification_hash := some "v",
    consensus_value := some (9/10), consensus_passed := some true,
    validators := some ["OLLAMA:LLAMA3", "CLAUDE"], timestamp := some "t",
    issuer_public_key := some "pk", signature := none,
    format_version := some "1.0" }

/-! ## Helper lemmas -/

/-- `success` is the decidable test `error = none`. -/
theorem success_eq_iff (r : ValidationResult) : r.success = true ↔ r.error = none := by
  unfold ValidationResult.success
  exact Option.isNone_iff_eq_none

/-- An element of `dictInsert d k v` is an element of `d` or the inserted
pair. -/
theorem mem_dictInsert {d : List (String × ℚ × String)} {k : String}
    {v : ℚ × String} {e : String × ℚ × String} (h : e ∈ dictInsert d k v) :
    e ∈ d ∨ e = (k, v) := by
  unfold dictInsert at h
  by_cases hk : d.any (fun e => decide (e.1 = k)) = true
  · rw [if_pos hk] at h
    rcases List.mem_map.mp h with ⟨x, hx, hxe⟩
    by_cases hxk : x.1 = k
    · right
      rw [if_pos hxk] at hxe
      exact hxe.symm
    · left
      rw [if_neg hxk] at hxe
      exact hxe ▸ hx
  · rw [if_neg hk] at h
    rcases List.mem_append.mp h with h1 | h1
    · exact Or.inl h1
    · exact Or.inr (List.mem_singleton.mp h1)

/-- `dictInsert` grows the list by at most one entry. -/
theorem length_dictInsert_le (d : List (String × ℚ × String)) (k : String)
    (v : ℚ × String) : (dictInsert d k v).length ≤ d.length + 1 := by
  unfold dictInsert
  by_cases hk : d.any (fun e => decide (e.1 = k)) = true
  · rw [if_pos hk, List.length_map]
    omega
  · rw [if_neg hk, List.length_append]
    simp

/-- `dictInsert` keeps the key list duplicate-free. -/
theorem keys_dictInsert_nodup {d : List (String × ℚ × String)} (k : String)
    (v : ℚ × String) (h : (d.map Prod.fst).Nodup) :
    ((dictInsert d k v).map Prod.fst).Nodup := by
  unfold dictInsert
  by_cases hk : d.any (fun e => decide (e.1 = k)) = true
  · rw [if_pos hk]
    have hmap : (d.map (fun e => if e.1 = k then (k, v) else e)).map Prod.fst
        = d.map Prod.fst := by
      rw [List.map_map]
      refine List.map_congr_left ?_
      intro e _
      by_cases hek : e.1 = k
      · simp [hek]
      · simp [hek]
    rw [hmap]
    exact h
  · rw [if_neg hk, List.map_append]
    have hnot : k ∉ d.map Prod.fst := by
      intro hmem
      rcases List.mem_map.mp hmem with ⟨x, hx, hxk⟩
      exact absurd (List.any_eq_true.mpr ⟨x, hx, by simp [hxk]⟩) hk
    simp only [List.map_singleton]
    exact List.Nodup.append h (List.nodup_singleton k)
      (by simpa [List.disjoint_singleton] using hnot)

/-- Every entry produced by the `/api/verify` accumulation loop traces
back to a returned `ValidationResult` with that name, confidence and
reasoning (generalized over the accumulator). -/
theorem mem_apiCollect_aux (outs : List (Option ValidationResult)) :
    ∀ (acc : List (String × ℚ × String)) (e : String × ℚ × String),
      e ∈ outs.foldl
        (fun acc o =>
          match o with
          | none => acc
          | some r => dictInsert acc r.validator_name (r.confidence, r.reasoning))
        acc →
      e ∈ acc ∨ ∃ r : ValidationResult, some r ∈ outs ∧
        e = (r.validator_name, r.confidence, r.reasoning) := by
  induction outs with
  | nil => intro acc e h; exact Or.inl h
  | cons o rest ih =>
      intro acc e h
      rw [List.foldl_cons] at h
      rcases ih _ e h with h1 | ⟨r, hr, he⟩
      · cases o with
        | none => exact Or.inl h1
        | some r =>
            rcases mem_dictInsert h1 with h2 | h2
            · exact Or.inl h2
            · exact Or.inr ⟨r, List.mem_cons_self _ _, h2⟩
      · exact Or.inr ⟨r, List.mem_cons_of_mem _ hr, he⟩

/-- Every entry of `apiCollect outs` traces back to a returned
`ValidationResult` recorded in `outs`. -/
theorem mem_apiCollect {outs : List (Option ValidationResult)}
    {e : String × ℚ × String} (h : e ∈ apiCollect outs) :
    ∃ r : ValidationResult, some r ∈ outs ∧
      e = (r.validator_name, r.confidence, r.reasoning) := by
  rcases mem_apiCollect_aux outs [] e h with h1 | h1
  · cases h1
  · exact h1

/-- The key list of the `/api/verify` accumulation loop stays
duplicate-free (generalized over the accumulator). -/
theorem apiCollect_keys_nodup_aux (outs : List (Option ValidationResult)) :
    ∀ acc : List (String × ℚ × String), (acc.map Prod.fst).Nodup →
      ((outs.foldl
        (fun acc o =>
          match o with
          | none => acc
          | some r => dictInsert acc r.validator_name (r.confidence, r.reasoning))
        acc).map Prod.fst).Nodup := by
  induction outs with
  | nil => intro acc h; exact h
  | cons o rest ih =>
      intro acc h
      rw [List.foldl_cons]
      cases o with
      | none => exact ih _ h
      | some r => exact ih _ (keys_dictInsert_nodup _ _ h)

/-- The key list of `apiCollect outs` is duplicate-free. -/
theorem apiCollect_keys_nodup (outs : List (Option ValidationResult)) :
    ((apiCollect outs).map Prod.fst).Nodup :=
  apiCollect_keys_nodup_aux outs [] List.nodup_nil

/-- The CLI accumulation loop adds at most one entry per successful
result (generalized over the accumulator). -/
theorem cliCollect_length_aux (results : List ValidationResult) :
    ∀ acc : List (String × ℚ × String),
      (results.foldl
        (fun acc r =>
          if r.success then dictInsert acc r.validator_name (r.confidence, r.reasoning)
          else acc)
        acc).length ≤ acc.length + (results.filter (fun r => r.success)).length := by
  induction results with
  | nil => intro acc; simp
  | cons r rest ih =>
      intro acc
      rw [List.foldl_cons]
      by_cases hs : r.success = true
      · have h1 := ih (dictInsert acc r.validator_name (r.confidence, r.reasoning))
        have h2 := length_dictInsert_le acc r.validator_name (r.confidence, r.reasoning)
        have h3 : (List.filter (fun r => r.success) (r :: rest)).length
            = (List.filter (fun r => r.success) rest).length + 1 := by
          rw [List.filter_cons_of_pos hs, List.length_cons]
        rw [if_pos hs, h3]
        omega
      · have h1 := ih acc
        have h3 : List.filter (fun r => r.success) (r :: rest)
            = List.filter (fun r => r.success) rest := by
          rw [List.filter_cons_of_neg (by simpa using hs)]
        rw [if_neg hs, h3]
        exact h1

/-- `cliCollect` never holds more entries than there are successful
results. -/
theorem cliCollect_length_le (results : List ValidationResult) :
    (cliCollect results).length ≤ (results.filter (fun r => r.success)).length := by
  simpa using cliCollect_length_aux results []

/-- A list of rationals with no nonzero element sums to zero. -/
theorem sum_eq_zero_of_no_nonzero (l : List ℚ)
    (h : l.filter (fun x => decide (x ≠ 0)) = []) : l.sum = 0 := by
  induction l with
  | nil => rfl
  | cons a rest ih =>
      by_cases ha : a = 0
      · have hf : List.filter (fun x => decide (x ≠ 0)) (a :: rest)
            = List.filter (fun x => decide (x ≠ 0)) rest := by
          rw [List.filter_cons_of_neg (by simp [ha])]
        rw [List.sum_cons, ha, ih (hf ▸ h), zero_add]
      · have hf : List.filter (fun x => decide (x ≠ 0)) (a :: rest)
            = a :: List.filter (fun x => decide (x ≠ 0)) rest := by
          rw [List.filter_cons_of_pos (by simp [ha])]
        rw [hf] at h
        cases h

/-- A list of rationals lying in [0, 1] with at most one nonzero element
sums to at most one. -/
theorem sum_le_one_of_at_most_one_nonzero (l : List ℚ)
    (h0 : ∀ x ∈ l, 0 ≤ x) (h1 : ∀ x ∈ l, x ≤ 1)
    (hnz : (l.filter (fun x => decide (x ≠ 0))).length ≤ 1) : l.sum ≤ 1 := by
  induction l with
  | nil => norm_num
  | cons a rest ih =>
      rw [List.sum_cons]
      by_cases ha : a = 0
      · have hf : List.filter (fun x => decide (x ≠ 0)) (a :: rest)
            = List.filter (fun x => decide (x ≠ 0)) rest := by
          rw [List.filter_cons_of_neg (by simp [ha])]
        have := ih (fun x hx => h0 x (List.mem_cons_of_mem _ hx))
          (fun x hx => h1 x (List.mem_cons_of_mem _ hx)) (hf ▸ hnz)
        rw [ha, zero_add]
        exact this
      · have hf : List.filter (fun x => decide (x ≠ 0)) (a :: rest)
            = a :: List.filter (fun x => decide (x ≠ 0)) rest := by
          rw [List.filter_cons_of_pos (by simp [ha])]
        rw [hf, List.length_cons] at hnz
        have hrest : List.filter (fun x => decide (x ≠ 0)) rest = [] :=
          List.length_eq_zero.mp (by omega)
        rw [sum_eq_zero_of_no_nonzero rest hrest, add_zero]
        exact h1 a (List.mem_cons_self _ _)

/-- Quorum rule of the consensus engine: with fewer than two entries no
consensus passes, at any threshold. -/
theorem calculate_consensus_not_passed_of_short (vr : List (String × ℚ × String))
    (t : ℚ) (h : vr.length < 2) : (calculate_consensus vr t).passed = false := by
  unfold calculate_consensus
  have hS : (vr.filter (fun e => inRange e.2.1)).length < 2 :=
    lt_of_le_of_lt (List.length_filter_le _ _) h
  simp only [hS, if_true]

/-- If at most one collected entry has a nonzero confidence, the consensus
at the default 0.66 threshold never passes: either the quorum fails, or
the mean over at least two in-range values of which at most one is nonzero
is at most 1/2 < 0.66. -/
theorem calculate_consensus_not_passed_of_one_nonzero
    (vr : List (String × ℚ × String))
    (hnz : (vr.filter (fun e => decide (e.2.1 ≠ 0))).length ≤ 1) :
    (calculate_consensus vr (66/100)).passed = false := by
  unfold calculate_consensus
  by_cases hlen : (vr.filter (fun e => inRange e.2.1)).length < 2
  · simp only [hlen, if_true]
  · simp only [hlen, if_false]
    set S := vr.filter (fun e => inRange e.2.1) with hSdef
    have hb0 : ∀ x ∈ S.map (fun e => e.2.1), 0 ≤ x := by
      intro x hx
      rcases List.mem_map.mp hx with ⟨e, he, rfl⟩
      have hin := (List.mem_filter.mp (hSdef ▸ he)).2
      exact (of_decide_eq_true hin).1
    have hb1 : ∀ x ∈ S.map (fun e => e.2.1), x ≤ 1 := by
      intro x hx
      rcases List.mem_map.mp hx with ⟨e, he, rfl⟩
      have hin := (List.mem_filter.mp (hSdef ▸ he)).2
      exact (of_decide_eq_true hin).2
    have hcount : ((S.map (fun e => e.2.1)).filter (fun x => decide (x ≠ 0))).length ≤ 1 := by
      rw [List.filter_map, List.length_map]
      have hsub : List.Sublist (S.filter ((fun x => decide (x ≠ 0)) ∘ (fun e => e.2.1)))
          (vr.filter ((fun x => decide (x ≠ 0)) ∘ (fun e => e.2.1))) :=
        List.Sublist.filter _ (hSdef ▸ List.filter_sublist vr)
      have := hsub.length_le
      calc (S.filter ((fun x => decide (x ≠ 0)) ∘ (fun e => e.2.1))).length
          ≤ (vr.filter ((fun x => decide (x ≠ 0)) ∘ (fun e => e.2.1))).length := this
        _ ≤ 1 := hnz
    have hsum : (S.map (fun e => e.2.1)).sum ≤ 1 :=
      sum_le_one_of_at_most_one_nonzero _ hb0 hb1 hcount
    have hn : (2:ℚ) ≤ (S.length : ℚ) := by
      have : 2 ≤ S.length := not_lt.mp hlen
      exact_mod_cast this
    have hdiv : (S.map (fun e => e.2.1)).sum / (S.length : ℚ) ≤ 1/2 := by
      rw [div_le_div_iff₀ (by linarith) (by norm_num)]
      linarith
    have hlt : ¬ ((66:ℚ)/100 ≤ (S.map (fun e => e.2.1)).sum / (S.length : ℚ)) := by
      intro hcontra
      have : (66:ℚ)/100 ≤ 1/2 := le_trans hcontra hdiv
      norm_num at this
    simp only [decide_eq_false hlt]

/-- A list containing two different elements has length at least two. -/
theorem two_le_length_of_two_mem {α : Type} {a b : α} {l : List α}
    (hne : a ≠ b) (ha : a ∈ l) (hb : b ∈ l) : 2 ≤ l.length := by
  rcases l with _ | ⟨x, xs⟩
  · cases ha
  · rcases List.mem_cons.mp ha with rfl | ha'
    · rcases List.mem_cons.mp hb with rfl | hb'
      · exact absurd rfl hne
      · have hpos := List.length_pos.mpr (List.ne_nil_of_mem hb')
        rw [List.length_cons]
        omega
    · have hpos := List.length_pos.mpr (List.ne_nil_of_mem ha')
      rw [List.length_cons]
      omega

/-- When fewer than two of the validator call outcomes are successful
results, and every error-carrying result reports confidence 0 (as all the
validators in `validators.py` do), at most one entry of the collected
`verifier_results` mapping carries a nonzero confidence. -/
theorem apiCollect_nonzero_le_one (outs : List (Option ValidationResult))
    (hsucc : ((outs.filterMap id).filter (fun r => r.success)).length < 2)
    (hzero : ∀ r : ValidationResult, some r ∈ outs → r.error ≠ none → r.confidence = 0) :
    ((apiCollect outs).filter (fun e => decide (e.2.1 ≠ 0))).length ≤ 1 := by
  by_contra hcon
  push_neg at hcon
  rcases hNZ : (apiCollect outs).filter (fun e => decide (e.2.1 ≠ 0)) with _ | ⟨a, tail⟩
  · rw [hNZ] at hcon
    simp at hcon
  · rcases tail with _ | ⟨b, rest⟩
    · rw [hNZ] at hcon
      simp at hcon
    · -- two entries of the mapping with nonzero confidence
      have haNZ : a ∈ (apiCollect outs).filter (fun e => decide (e.2.1 ≠ 0)) := by
        rw [hNZ]; exact List.mem_cons_self _ _
      have hbNZ : b ∈ (apiCollect outs).filter (fun e => decide (e.2.1 ≠ 0)) := by
        rw [hNZ]; exact List.mem_cons_of_mem _ (List.mem_cons_self _ _)
      have ha := List.mem_filter.mp haNZ
      have hb := List.mem_filter.mp hbNZ
      have hanz : a.2.1 ≠ 0 := of_decide_eq_true ha.2
      have hbnz : b.2.1 ≠ 0 := of_decide_eq_true hb.2
      -- their keys differ, because apiCollect keys are duplicate-free
      have hkeysub : List.Sublist
          (((apiCollect outs).filter (fun e => decide (e.2.1 ≠ 0))).map Prod.fst)
          ((apiCollect outs).map Prod.fst) :=
        List.Sublist.map _ (List.filter_sublist _)
      have hkeynd := (apiCollect_keys_nodup outs).sublist hkeysub
      rw [hNZ] at hkeynd
      have hab : a.1 ≠ b.1 := by
        rw [List.map_cons, List.map_cons, List.nodup_cons] at hkeynd
        intro hEq
        exact hkeynd.1 (hEq ▸ List.mem_cons_self _ _)
      -- trace both entries back to returned results
      rcases mem_apiCollect ha.1 with ⟨r1, hr1, he1⟩
      rcases mem_apiCollect hb.1 with ⟨r2, hr2, he2⟩
      have hr1conf : r1.confidence ≠ 0 := by
        intro h0
        exact hanz (by rw [he1]; exact h0)
      have hr2conf : r2.confidence ≠ 0 := by
        intro h0
        exact hbnz (by rw [he2]; exact h0)
      have hr1err : r1.error = none := by
        by_contra hne
        exact hr1conf (hzero r1 hr1 hne)
      have hr2err : r2.error = none := by
        by_contra hne
        exact hr2conf (hzero r2 hr2 hne)
      have hr1succ : r1.success = true := (success_eq_iff r1).mpr hr1err
      have hr2succ : r2.success = true := (success_eq_iff r2).mpr hr2err
      have hr12 : r1 ≠ r2 := by
        intro hEq
        apply hab
        rw [he1, he2, hEq]
      have hm1 : r1 ∈ (outs.filterMap id).filter (fun r => r.success) :=
        List.mem_filter.mpr ⟨List.mem_filterMap.mpr ⟨some r1, hr1, rfl⟩, hr1succ⟩
      have hm2 : r2 ∈ (outs.filterMap id).filter (fun r => r.success) :=
        List.mem_filter.mpr ⟨List.mem_filterMap.mpr ⟨some r2, hr2, rfl⟩, hr2succ⟩
      have := two_le_length_of_two_mem hr12 hm1 hm2
      omega

/-- `repo_verify_step` never changes the configured threshold. -/
theorem repo_verify_step_threshold (vr : List (String × ℚ × String))
    (acc : RepoState × Option VerificationObj) (ch : String) :
    (repo_verify_step vr acc ch).1.threshold = acc.1.threshold := by
  unfold repo_verify_step
  rcases h : acc.1.claims.find? (fun e => decide (e.1 = ch)) with _ | e
  · simp only [h]
  · simp only [h]

/-- `repo_verify_step` either keeps the accumulated verification or emits
one whose consensus was computed by the engine on the supplied results at
the repository's threshold. -/
theorem repo_verify_step_snd (vr : List (String × ℚ × String))
    (acc : RepoState × Option VerificationObj) (ch : String) :
    (repo_verify_step vr acc ch).2 = acc.2 ∨
      ∃ v : VerificationObj, (repo_verify_step vr acc ch).2 = some v ∧
        v.consensus = calculate_consensus vr acc.1.threshold := by
  unfold repo_verify_step
  rcases h : acc.1.claims.find? (fun e => decide (e.1 = ch)) with _ | e
  · left
    simp only [h]
  · right
    refine ⟨{ claim_hash := ch, verifier_results := vr,
              consensus := calculate_consensus vr acc.1.threshold,
              parent := acc.1.head }, ?_, rfl⟩
    simp only [h]

/-- Along the staged-claim fold of `repo_verify`, the threshold is
preserved and any emitted verification carries the engine's consensus for
the supplied results at the starting threshold. -/
theorem repo_verify_fold (vr : List (String × ℚ × String)) (l : List String) :
    ∀ acc : RepoState × Option VerificationObj,
      (l.foldl (repo_verify_step vr) acc).1.threshold = acc.1.threshold ∧
      ((l.foldl (repo_verify_step vr) acc).2 = acc.2 ∨
        ∃ v : VerificationObj, (l.foldl (repo_verify_step vr) acc).2 = some v ∧
          v.consensus = calculate_consensus vr acc.1.threshold) := by
  induction l with
  | nil => intro acc; exact ⟨rfl, Or.inl rfl⟩
  | cons ch rest ih =>
      intro acc
      rw [List.foldl_cons]
      obtain ⟨iht, ihv⟩ := ih (repo_verify_step vr acc ch)
      refine ⟨by rw [iht, repo_verify_step_threshold], ?_⟩
      rcases ihv with h | ⟨v, hv, hc⟩
      · rcases repo_verify_step_snd vr acc ch with h2 | ⟨v, hv, hc⟩
        · exact Or.inl (by rw [h, h2])
        · exact Or.inr ⟨v, by rw [h, hv], hc⟩
      · exact Or.inr ⟨v, hv, by
          rw [hc, repo_verify_step_threshold]⟩

/-- A verification returned by `repo_verify` carries the consensus
computed on the supplied verifier results at the repository threshold. -/
theorem repo_verify_some_consensus {st : RepoState}
    {vr : List (String × ℚ × String)} {st2 : RepoState} {v : VerificationObj}
    (h : repo_verify st vr = (st2, some v)) :
    v.consensus = calculate_consensus vr st.threshold := by
  obtain ⟨_, hv⟩ := repo_verify_fold vr st.staged (st, none)
  unfold repo_verify at h
  rcases hv with h2 | ⟨w, hw, hc⟩
  · rw [h] at h2
    cases h2
  · rw [h] at hw
    have : v = w := by
      simpa using hw
    rw [this]
    exact hc

/-- `repo_claim` never changes the configured threshold. -/
theorem repo_claim_threshold (st : RepoState) (content domain category : String) :
    (repo_claim st content domain category).1.threshold = st.threshold := rfl

/-- The hash of the created claim is staged after `repo_claim`. -/
theorem repo_claim_staged (st : RepoState) (content domain category : String) :
    claim_hash content domain category ∈ (repo_claim st content domain category).1.staged := by
  unfold repo_claim
  by_cases h : claim_hash content domain category ∈ st.staged
  · simp [h]
  · simp [h]

/-- The hash of the created claim keys an object in the store after
`repo_claim`. -/
theorem repo_claim_stored (st : RepoState) (content domain category : String) :
    claim_hash content domain category
      ∈ (repo_claim st content domain category).1.claims.map Prod.fst := by
  unfold repo_claim
  by_cases h : claim_hash content domain category ∈ st.claims.map Prod.fst
  · simp [h]
  · simp [h]

/-- A raw certificate without a signature fails the
structural-completeness check. -/
theorem parseCertificate_none_of_no_signature (raw : RawCertificate)
    (hsig : raw.signature = none) : parseCertificate raw = none := by
  obtain ⟨ch, cc, cd, vh, cv, cp, vl, ts, pk, sg, fv⟩ := raw
  have hsg : sg = none := hsig
  subst hsg
  cases ch <;> cases cc <;> cases cd <;> cases vh <;> cases cv <;> cases cp
    <;> cases vl <;> cases ts <;> cases pk <;> rfl

/-! ## Claim theorems -/

/-- C10: For every `ValidationResult` `r`, `r.success` is true if and only
if `r.error` is `None`. -/
theorem C10_success_iff_no_error (r : ValidationResult) :
    r.success = true ↔ r.error = none :=
  success_eq_iff r

/-- C10 witness: a concrete result with no error is successful. -/
theorem C10_witness : okResult.success = true ∧ okResult.error = none :=
  ⟨(C10_success_iff_no_error okResult).mpr rfl, rfl⟩

/-- C6: For every call to `create_response`, the returned API envelope has
`success` equal to `true` if and only if the `error` argument is `None`. -/
theorem C6_create_response_success (α : Type) (data : Option α)
    (error : Option String) (start_time : Option ℚ) (now : ℚ) :
    (create_response α data error start_time now).success = true ↔ error = none := by
  show error.isNone = true ↔ error = none
  exact Option.isNone_iff_eq_none

/-- C6 witness: a concrete failure envelope reports `success = false`. -/
theorem C6_witness :
    ((create_response Unit none (some "boom") none 0).success = true ↔
      (some "boom" : Option String) = none) ∧
    (create_response Unit none (some "boom") none 0).success = false :=
  ⟨C6_create_response_success Unit none (some "boom") none 0, rfl⟩

/-- C7: `init` on an already-initialized repository without `force` fails
with the already-exists error and the CLI turns it into exit code 1 rather
than propagating the internal exception. -/
theorem C7_reinit_without_force_exits_one :
    repo_init true false = Except.error InitError.alreadyExists ∧
    cli_init true false = CliOutcome.exit 1 := by
  constructor
  · rfl
  · rfl

/-- C1: evaluation at the failing input.  A returned result whose `error`
field is set (here: exactly what `ClaudeValidator.validate` returns without
an API key) is excluded by the CLI accumulation loop but included — name,
confidence 0 and empty reasoning — in the `verifier_results` mapping built
by the `/api/verify` handler, which only skips validators whose `validate`
call raises. -/
theorem C1_api_includes_error_result :
    errResult.error ≠ none ∧
    cliCollect [okResult, errResult] = [("OLLAMA:LLAMA3", 1, "ok")] ∧
    apiCollect [some okResult, some errResult] =
      [("OLLAMA:LLAMA3", 1, "ok"), ("CLAUDE", 0, "")] := by
  refine ⟨by decide, by decide, by decide⟩

/-- C3 counterexample: `ClaudeValidator.validate` with an API key set and
a response parsing to confidence 2 returns a `ValidationResult` with no
error and a confidence outside [0, 1] — the claim fails for the cloud
validators. -/
theorem C3_counterexample :
    (ClaudeValidator.validate (some "key") "claude-3-haiku-20240307"
        (CloudOutcome.parsed 2 "confident" 10)).error = none ∧
    ¬ ((ClaudeValidator.validate (some "key") "claude-3-haiku-20240307"
        (CloudOutcome.parsed 2 "confident" 10)).confidence ≤ 1) := by
  refine ⟨by decide, by decide⟩

/-- C3 (amended): the local (`Ollama`) and human validators return, for
every input, a result with `error` set or a confidence clamped into
[0, 1]; the cloud validators return the parsed confidence unclamped, so
their successful results carry the response confidence as is, inside
[0, 1] only when the model answered in range. -/
theorem C3_amended_clamping (model : String) (oout : OllamaOutcome)
    (hname : String) (hout : HumanOutcome)
    (key : Option String) (cmodel : String) (q : ℚ) (rs : String) (tk : ℕ) :
    ((OllamaValidator.validate model oout).error ≠ none ∨
      (0 ≤ (OllamaValidator.validate model oout).confidence ∧
        (OllamaValidator.validate model oout).confidence ≤ 1)) ∧
    ((HumanValidator.validate hname hout).error ≠ none ∨
      (0 ≤ (HumanValidator.validate hname hout).confidence ∧
        (HumanValidator.validate hname hout).confidence ≤ 1)) ∧
    ((ClaudeValidator.validate key cmodel (CloudOutcome.parsed q rs tk)).error ≠ none ∨
      (ClaudeValidator.validate key cmodel (CloudOutcome.parsed q rs tk)).confidence = q) := by
  refine ⟨?_, ?_, ?_⟩
  · cases oout with
    | parsed c r =>
        right
        constructor
        · exact le_min zero_le_one (le_max_left 0 c)
        · exact min_le_left 1 (max 0 c)
    | jsonDecodeError t =>
        right
        norm_num [OllamaValidator.validate]
    | httpxMissing => left; simp [OllamaValidator.validate]
    | requestFailed m => left; simp [OllamaValidator.validate]
  · cases hout with
    | entered c r =>
        right
        constructor
        · exact le_min zero_le_one (le_max_left 0 (c / 100))
        · exact min_le_left 1 (max 0 (c / 100))
    | inputFailed m => left; simp [HumanValidator.validate]
  · unfold ClaudeValidator.validate
    by_cases hk : key = none ∨ key = some ""
    · left
      rw [if_pos hk]
      simp
    · right
      rw [if_neg hk]

/-- C9: with `local_only` and the Ollama server answering, the registry
returns exactly three `OllamaValidator` objects — two distinct ones both
named OLLAMA:LLAMA3 (the duplicate check compares fresh objects by
identity, never by name) plus one for mistral — and nothing else. -/
theorem C9_local_only_duplicate_llama3 :
    get_default_validators true true false false false =
      [ValidatorInst.ollama 0 "llama3", ValidatorInst.ollama 1 "llama3",
        ValidatorInst.ollama 2 "mistral"] ∧
    ValidatorInst.ollama 0 "llama3" ≠ ValidatorInst.ollama 1 "llama3" ∧
    (ValidatorInst.ollama 0 "llama3").vname = "OLLAMA:LLAMA3" ∧
    (ValidatorInst.ollama 1 "llama3").vname = "OLLAMA:LLAMA3" ∧
    (get_default_validators true true false false false).all
      ValidatorInst.isOllama = true := by
  refine ⟨by decide, by decide, by decide, by decide, by decide⟩

/-- C5: the aggregated confidence returned by `validate_claim` is the
arithmetic mean of the confidences of the results whose `error` is `None`,
and is 0 when every result carries an error. -/
theorem C5_avg_over_successful
    (validators : List (String → String → ValidationResult))
    (claim domain : String) (min_validators : ℕ)
    (results : List ValidationResult) (avg : ℚ)
    (h : validate_claim validators claim domain min_validators
          = Except.ok (results, avg)) :
    (results.filter (fun r => decide (r.error = none)) = [] → avg = 0) ∧
    (results.filter (fun r => decide (r.error = none)) ≠ [] →
      avg = ((results.filter (fun r => decide (r.error = none))).map
               (fun r => r.confidence)).sum
            / (results.filter (fun r => decide (r.error = none))).length) := by
  have hfil : ∀ l : List ValidationResult,
      l.filter (fun r => r.success) = l.filter (fun r => decide (r.error = none)) := by
    intro l
    apply List.filter_congr
    intro r _
    cases herr : r.error <;> simp [ValidationResult.success, herr]
  unfold validate_claim at h
  by_cases hlen : validators.length < min_validators
  · rw [if_pos hlen] at h
    cases h
  · rw [if_neg hlen] at h
    simp only [Except.ok.injEq, Prod.mk.injEq] at h
    obtain ⟨hres, havg⟩ := h
    subst hres
    subst havg
    rw [← hfil]
    constructor
    · intro hempty
      rw [if_pos (by rw [hempty]; rfl)]
    · intro hne
      rw [if_neg (by
        intro hemp
        exact hne (List.isEmpty_iff.mp hemp))]

/-- C5 witness: two constant validators with confidences 1/2 and 1; the
returned average is their mean 3/4. -/
theorem C5_witness :
    (([{ validator_name := "A", confidence := 1/2, reasoning := "r" },
       { validator_name := "B", confidence := 1, reasoning := "s" }] :
        List ValidationResult).filter (fun r => decide (r.error = none)) = [] →
      (3/4 : ℚ) = 0) ∧
    (([{ validator_name := "A", confidence := 1/2, reasoning := "r" },
       { validator_name := "B", confidence := 1, reasoning := "s" }] :
        List ValidationResult).filter (fun r => decide (r.error = none)) ≠ [] →
      (3/4 : ℚ) =
        ((([{ validator_name := "A", confidence := 1/2, reasoning := "r" },
            { validator_name := "B", confidence := 1, reasoning := "s" }] :
            List ValidationResult).filter (fun r => decide (r.error = none))).map
              (fun r => r.confidence)).sum
          / (([{ validator_name := "A", confidence := 1/2, reasoning := "r" },
              { validator_name := "B", confidence := 1, reasoning := "s" }] :
              List ValidationResult).filter (fun r => decide (r.error = none))).length) :=
  C5_avg_over_successful
    [fun _ _ => { validator_name := "A", confidence := 1/2, reasoning := "r" },
     fun _ _ => { validator_name := "B", confidence := 1, reasoning := "s" }]
    "water boils" "physics" 2
    [{ validator_name := "A", confidence := 1/2, reasoning := "r" },
     { validator_name := "B", confidence := 1, reasoning := "s" }]
    (3/4)
    (by
      unfold validate_claim
      norm_num [ValidationResult.success, List.filter, List.isEmpty])

/-- C4: `verify_proof_standalone` is a total function returning a triple,
and on malformed input — an undecodable payload or one missing a required
field such as `signature` — it returns `is_valid = false`, a nonempty
descriptive message, and no parsed certificate. -/
theorem C4_malformed_input_rejected (sigValid : ProofCertificate → Bool)
    (input : Option RawCertificate)
    (h : input = none ∨ ∃ raw : RawCertificate, input = some raw ∧ raw.signature = none) :
    (verify_proof_standalone sigValid input).1 = false ∧
    (verify_proof_standalone sigValid input).2.1 ≠ "" ∧
    (verify_proof_standalone sigValid input).2.2 = none := by
  rcases h with rfl | ⟨raw, rfl, hsig⟩
  · have hmsg : "Invalid certificate: could not parse input" ≠ "" := by decide
    exact ⟨rfl, hmsg, rfl⟩
  · have hparse := parseCertificate_none_of_no_signature raw hsig
    have hmsg : "Invalid certificate: missing required field" ≠ "" := by decide
    simp only [verify_proof_standalone, hparse]
    exact ⟨trivial, hmsg, trivial⟩

/-- C4 witness: a certificate payload missing its `signature` field is
rejected with a message and no certificate. -/
theorem C4_witness :
    (some rawCertMissingSignature = none ∨
      ∃ raw : RawCertificate, some rawCertMissingSignature = some raw ∧
        raw.signature = none) ∧
    (verify_proof_standalone (fun _ => true) (some rawCertMissingSignature)).1 = false ∧
    (verify_proof_standalone (fun _ => true) (some rawCertMissingSignature)).2.1 ≠ "" ∧
    (verify_proof_standalone (fun _ => true) (some rawCertMissingSignature)).2.2 = none :=
  ⟨Or.inr ⟨rawCertMissingSignature, rfl, rfl⟩,
   C4_malformed_input_rejected (fun _ => true) (some rawCertMissingSignature)
     (Or.inr ⟨rawCertMissingSignature, rfl, rfl⟩)⟩

/-- C8: when the `/api/verify` handler collects fewer than two validator
results it answers with the insufficient-validators error envelope, but
the claim created from the request has already been stored and staged —
the error path does not undo the claim creation. -/
theorem C8_claim_persists_on_insufficient (st : RepoState)
    (content domain : String) (outs : List (Option ValidationResult))
    (h : (apiCollect outs).length < 2) :
    (api_verify st content domain outs).2 =
      ApiVerifyResponse.err "Verification failed - insufficient validators available" ∧
    claim_hash content domain "factual" ∈ (api_verify st content domain outs).1.staged ∧
    claim_hash content domain "factual"
      ∈ (api_verify st content domain outs).1.claims.map Prod.fst := by
  unfold api_verify
  rw [if_pos h]
  exact ⟨rfl, repo_claim_staged st content domain "factual",
    repo_claim_stored st content domain "factual"⟩

/-- C8 witness: on a fresh repository, a request whose validator calls
all raised yields the error envelope while the claim stays stored and
staged. -/
theorem C8_witness :
    (apiCollect ([] : List (Option ValidationResult))).length < 2 ∧
    ((api_verify emptyRepoState "Water boils at 100C" "physics" []).2 =
        ApiVerifyResponse.err "Verification failed - insufficient validators available" ∧
      claim_hash "Water boils at 100C" "physics" "factual"
        ∈ (api_verify emptyRepoState "Water boils at 100C" "physics" []).1.staged ∧
      claim_hash "Water boils at 100C" "physics" "factual"
        ∈ (api_verify emptyRepoState "Water boils at 100C" "physics" []).1.claims.map
            Prod.fst) :=
  ⟨by decide,
   C8_claim_persists_on_insufficient emptyRepoState "Water boils at 100C" "physics" []
     (by decide)⟩

/-- C2: a quorum of at least two successful validator results is
mandatory.  If fewer than two of the results gathered by the CLI are
successful, the consensus over the collected mapping fails at every
threshold; if fewer than two of the results gathered by the `/api/verify`
handler are successful — with the error-carrying ones reporting
confidence 0, as every validator in `validators.py` does — then the
handler either answers with an error envelope or produces a verification
whose consensus did not pass, no matter how high the individual
confidences are. -/
theorem C2_quorum_of_two_required (results : List ValidationResult)
    (outs : List (Option ValidationResult)) (st : RepoState)
    (content domain : String)
    (hcli : (results.filter (fun r => r.success)).length < 2)
    (hapi : ((outs.filterMap id).filter (fun r => r.success)).length < 2)
    (hzero : ∀ r : ValidationResult, some r ∈ outs → r.error ≠ none → r.confidence = 0)
    (hthr : st.threshold = 66/100) :
    (∀ t : ℚ, (calculate_consensus (cliCollect results) t).passed = false) ∧
    (∀ (st2 : RepoState) (p : Bool) (cv : ℚ) (s : String),
      api_verify st content domain outs = (st2, ApiVerifyResponse.ok p cv s) →
        p = false) := by
  constructor
  · intro t
    exact calculate_consensus_not_passed_of_short _ t
      (lt_of_le_of_lt (cliCollect_length_le results) hcli)
  · intro st2 p cv s h
    unfold api_verify at h
    by_cases hq : (apiCollect outs).length < 2
    · rw [if_pos hq] at h
      injection h with h1 h2
      cases h2
    · rw [if_neg hq] at h
      rcases hrv : repo_verify (repo_claim st content domain "factual").1
          (apiCollect outs) with ⟨st3, vopt⟩
      rw [hrv] at h
      cases vopt with
      | none =>
          injection h with h1 h2
          cases h2
      | some v =>
          simp only [Prod.mk.injEq, ApiVerifyResponse.ok.injEq] at h
          obtain ⟨h1, hp, hcv, hs⟩ := h
          have hcons := repo_verify_some_consensus hrv
          rw [repo_claim_threshold, hthr] at hcons
          have hnp := calculate_consensus_not_passed_of_one_nonzero (apiCollect outs)
            (apiCollect_nonzero_le_one outs hapi hzero)
          rw [← hp, hcons, hnp]

/-- C2 witness: one failed call on the CLI side; one success and one
key-missing failure on the API side. -/
theorem C2_witness :
    (([errResult].filter (fun r => r.success)).length < 2 ∧
      (([some okResult, some errResult].filterMap id).filter
        (fun r => r.success)).length < 2) ∧
    ((∀ t : ℚ, (calculate_consensus (cliCollect [errResult]) t).passed = false) ∧
      (∀ (st2 : RepoState) (p : Bool) (cv : ℚ) (s : String),
        api_verify emptyRepoState "Water boils at 100C" "physics"
            [some okResult, some errResult] = (st2, ApiVerifyResponse.ok p cv s) →
          p = false)) :=
  ⟨⟨by decide, by decide⟩,
   C2_quorum_of_two_required [errResult] [some okResult, some errResult]
     emptyRepoState "Water boils at 100C" "physics"
     (by decide) (by decide)
     (by
       intro r hr hne
       rcases List.mem_cons.mp hr with h1 | h1
       · cases h1
         exact absurd rfl hne
       · rcases List.mem_cons.mp h1 with h2 | h2
         · cases h2
           rfl
         · cases h2)
     rfl⟩
